import Mathlib

/-!
Shallow embedding of the pyMC_Repeater packet-handling data plane:
the repeater engine (src/repeater/engine.py), the airtime accountant
(src/repeater/airtime.py), the advert upsert
(src/repeater/data_acquisition/sqlite_handler.py) and the upstream
token generator (src/repeater/data_acquisition/letsmesh_handler.py).
Machine arithmetic of the source (Python floats over times, delays and
airtime) is embedded as exact rationals; byte strings as `List Nat`.
-/

namespace Repeater

/-- Modelled from the spec: protocol constants imported by engine.py from the
external `pymc_core.protocol.constants` module (not part of this repository's
sources). The spec fixes `MAX_PATH_SIZE = 64`, a header whose low bits select
the route type among FLOOD, DIRECT, TRANSPORT_FLOOD, TRANSPORT_DIRECT and a
payload type in bits 2..5 (engine.py line 475 reads `(header & 0x3C) >> 2`),
so the route mask is the low two bits. -/
def MAX_PATH_SIZE : Nat := 64

/-- Modelled from the spec: the header mask selecting the route-type bits. -/
def PH_ROUTE_MASK : Nat := 3

/-- Modelled from the spec: route-type code for transport flood. -/
def ROUTE_TYPE_TRANSPORT_FLOOD : Nat := 0

/-- Modelled from the spec: route-type code for flood. -/
def ROUTE_TYPE_FLOOD : Nat := 1

/-- Modelled from the spec: route-type code for direct. -/
def ROUTE_TYPE_DIRECT : Nat := 2

/-- Modelled from the spec: route-type code for transport direct. -/
def ROUTE_TYPE_TRANSPORT_DIRECT : Nat := 3

/-- An in-flight packet (pymc_core `Packet` as the engine uses it): header
byte, path as a byte sequence, payload bytes. `pktHash` stands for
`calculate_packet_hash().hex().upper()`, the stable fingerprint over the
immutable fields (header + payload; the spec delegates the exact algorithm),
so it is carried unchanged through path rewrites. `doNotRetransmit` is the
flag the helpers set via `mark_do_not_retransmit()`. -/
structure Packet where
  header : Nat
  path : List Nat
  payload : List Nat
  pktHash : String
  doNotRetransmit : Bool := false
deriving DecidableEq, Repr

/-- engine.py: `packet.header & PH_ROUTE_MASK`. -/
def routeType (p : Packet) : Nat := p.header &&& PH_ROUTE_MASK

/-- The duplicate cache `self.seen_packets`, a Python `OrderedDict` mapping
packet-hash to first-seen timestamp, in insertion order. -/
abbrev SeenCache := List (String × ℚ)

/-- Membership test of the cache, `pkt_hash in self.seen_packets`. -/
def cacheMem (c : SeenCache) (h : String) : Bool := c.any (fun e => e.1 == h)

/-- Configuration the engine reads (engine.py `__init__`, lines 37-54):
`local_hash`, `cache_ttl` (default 60), the two delay factors,
`use_score_for_tx`, `mesh.global_flood_allow` and the daemon mode. -/
structure EngineConfig where
  localHash : Nat
  cacheTtl : ℚ := 60
  txDelayFactor : ℚ := 1
  directTxDelayFactor : ℚ := 1/2
  useScoreForTx : Bool := false
  globalFloodAllow : Bool := true
  monitorMode : Bool := false
deriving DecidableEq

/-- engine.py line 46: `self.max_cache_size = 1000` (a literal, not config). -/
def max_cache_size : Nat := 1000

/-- engine.py lines 419-424, `RepeaterHandler.is_duplicate`: returns whether
the packet hash is a key of `seen_packets`. The entry's timestamp is not
consulted. -/
def is_duplicate (seen : SeenCache) (h : String) : Bool := cacheMem seen h

/-- engine.py lines 309-314, `RepeaterHandler.cleanup_cache`: deletes every
entry with `now - ts > cache_ttl`. -/
def cleanup_cache (now ttl : ℚ) (seen : SeenCache) : SeenCache :=
  seen.filter (fun e => ¬ (now - e.2 > ttl))

/-- `OrderedDict` assignment `self.seen_packets[pkt_hash] = time.time()`: an
existing key keeps its position and gets the new value, a new key is appended
at the end. -/
def odInsert (c : SeenCache) (h : String) (t : ℚ) : SeenCache :=
  if cacheMem c h then c.map (fun e => if e.1 == h then (e.1, t) else e)
  else c ++ [(h, t)]

/-- engine.py lines 426-432, `RepeaterHandler.mark_seen`: insert the hash with
the current time; when the cache then exceeds `max_cache_size`, evict the
oldest entry (`popitem(last=False)`). -/
def mark_seen (seen : SeenCache) (h : String) (now : ℚ) : SeenCache :=
  let c := odInsert seen h now
  if c.length > max_cache_size then c.drop 1 else c

/-- engine.py lines 434-442, `RepeaterHandler.validate_packet`: reject an empty
payload and a path already at `MAX_PATH_SIZE`. -/
def validate_packet (p : Packet) : Bool × String :=
  if p.payload.isEmpty then (false, "Empty payload")
  else if MAX_PATH_SIZE ≤ p.path.length then (false, "Path at max size")
  else (true, "")

/-- What `flood_forward` drops or returns: the forwarded packet (if any), the
cache afterwards and `self._last_drop_reason`. -/
structure FloodResult where
  fwd : Option Packet
  seen : SeenCache
  dropReason : Option String
deriving DecidableEq

/-- engine.py lines 524-561, `RepeaterHandler.flood_forward`. The transport-key
consultation (`_check_transport_codes`, which computes expected codes with the
external `calc_transport_code`) is passed in as its result `tc`: allowed flag
and the reason reported on denial. On acceptance the local hash is appended to
the path and the hash is marked seen at `now`. -/
def flood_forward (cfg : EngineConfig) (tc : Bool × String) (now : ℚ)
    (seen : SeenCache) (p : Packet) : FloodResult :=
  if !(validate_packet p).1 then ⟨none, seen, some (validate_packet p).2⟩
  else if !cfg.globalFloodAllow then
    if routeType p == ROUTE_TYPE_FLOOD || routeType p == ROUTE_TYPE_TRANSPORT_FLOOD then
      if !tc.1 then ⟨none, seen, some tc.2⟩
      else if is_duplicate seen p.pktHash then ⟨none, seen, some "Duplicate"⟩
      else ⟨some { p with path := p.path ++ [cfg.localHash] },
            mark_seen seen p.pktHash now, none⟩
    else ⟨none, seen, some "Global flood policy disabled"⟩
  else if is_duplicate seen p.pktHash then ⟨none, seen, some "Duplicate"⟩
  else ⟨some { p with path := p.path ++ [cfg.localHash] },
        mark_seen seen p.pktHash now, none⟩

/-- engine.py lines 563-579, `RepeaterHandler.direct_forward`: require a
non-empty path whose first element is the local hash, else drop with the
respective reason; on success pop the first path element. -/
def direct_forward (cfg : EngineConfig) (p : Packet) : Option Packet × Option String :=
  match p.path with
  | [] => (none, some "Direct: no path")
  | nextHop :: rest =>
    if nextHop ≠ cfg.localHash then (none, some "Direct: not for us")
    else (some { p with path := rest }, none)

/-- engine.py line 585: per-SF SNR thresholds, with `.get(sf, -10.0)`. -/
def snrThreshold (sf : Nat) : ℚ :=
  if sf = 7 then -(15/2)
  else if sf = 8 then -10
  else if sf = 9 then -(25/2)
  else if sf = 10 then -15
  else if sf = 11 then -(35/2)
  else if sf = 12 then -20
  else -10

/-- engine.py lines 581-605, `RepeaterHandler.calculate_packet_score`: zero
below SF 7 or below the SNR threshold, else the success rate
`(snr - threshold) / 10` times the collision penalty `1 - len/256`, clamped
by `max(0.0, min(1.0, score))`. -/
def calculate_packet_score (snr : ℚ) (packet_len : Nat) (spreading_factor : Nat) : ℚ :=
  if spreading_factor < 7 then 0
  else if snr < snrThreshold spreading_factor then 0
  else max 0 (min 1 ((snr - snrThreshold spreading_factor) / 10
    * (1 - (packet_len : ℚ) / 256)))

/-- engine.py lines 619-629: the base delay before any score adjustment or
cap. `airtimeMs` is the external `PacketTimingUtils.estimate_airtime_ms` of
the payload length; `r` is the `random.uniform(0, 5)` draw. -/
def txBaseDelay (cfg : EngineConfig) (airtimeMs r : ℚ) (p : Packet) : ℚ :=
  if routeType p = ROUTE_TYPE_FLOOD then
    ((airtimeMs * 52 / 50) / 2) * r * cfg.txDelayFactor / 1000
  else cfg.directTxDelayFactor

/-- engine.py lines 631-643: when the delay reaches 50 ms and score-based TX
is on, multiply by `max(0.2, 1 - score)` (the score is computed with the
default spreading factor 8, as in the source). -/
def txAdjustedDelay (cfg : EngineConfig) (airtimeMs r snr : ℚ) (p : Packet) : ℚ :=
  if 1/20 ≤ txBaseDelay cfg airtimeMs r p ∧ cfg.useScoreForTx = true then
    txBaseDelay cfg airtimeMs r p
      * max (1/5) (1 - calculate_packet_score snr p.payload.length 8)
  else txBaseDelay cfg airtimeMs r p

/-- engine.py lines 607-653, `RepeaterHandler._calculate_tx_delay`: the
adjusted delay capped at 5 seconds. -/
def calculate_tx_delay (cfg : EngineConfig) (airtimeMs r snr : ℚ) (p : Packet) : ℚ :=
  min (txAdjustedDelay cfg airtimeMs r snr p) 5

/-- engine.py lines 655-675, `RepeaterHandler.process_packet`: branch on the
route type, forward via flood or direct, and pair the forwarded packet with
its transmit delay. Returns (result, cache afterwards, drop reason). -/
def process_packet (cfg : EngineConfig) (tc : Bool × String) (now : ℚ)
    (seen : SeenCache) (p : Packet) (snr r airtimeMs : ℚ) :
    Option (Packet × ℚ) × SeenCache × Option String :=
  let rt := routeType p
  if rt = ROUTE_TYPE_FLOOD ∨ rt = ROUTE_TYPE_TRANSPORT_FLOOD then
    match flood_forward cfg tc now seen p with
    | ⟨some q, seen', _⟩ => (some (q, calculate_tx_delay cfg airtimeMs r snr q), seen', none)
    | ⟨none, seen', reason⟩ => (none, seen', reason)
  else if rt = ROUTE_TYPE_DIRECT ∨ rt = ROUTE_TYPE_TRANSPORT_DIRECT then
    match direct_forward cfg p with
    | (some q, _) => (some (q, calculate_tx_delay cfg airtimeMs r snr q), seen, none)
    | (none, reason) => (none, seen, reason)
  else (none, seen, some ("Unknown route type"))

/-- airtime.py lines 9-18: duty-cycle configuration; the rolling window is the
literal `self.window_size = 60` seconds. -/
structure AirtimeConfig where
  enforcementEnabled : Bool := true
  maxAirtimePerMinute : ℚ := 3600
deriving DecidableEq

/-- airtime.py line 17: the rolling-window width in seconds. -/
def window_size : ℚ := 60

/-- airtime.py lines 36-59, `AirtimeManager.can_transmit`: if enforcement is
off, always admit. Else drop history entries with `now - ts >= 60`, sum the
remainder, admit when the sum plus the requested airtime fits the budget;
on denial report the wait until the oldest kept entry leaves the window
(1.0 s when nothing is left). Returns (ok, wait seconds, history afterwards). -/
def can_transmit (cfg : AirtimeConfig) (now : ℚ) (hist : List (ℚ × ℚ))
    (airtimeMs : ℚ) : Bool × ℚ × List (ℚ × ℚ) :=
  if !cfg.enforcementEnabled then (true, 0, hist)
  else
    let kept := hist.filter (fun e => now - e.1 < window_size)
    let current := (kept.map Prod.snd).sum
    if current + airtimeMs ≤ cfg.maxAirtimePerMinute then (true, 0, kept)
    else
      match kept with
      | [] => (false, 1, kept)
      | (oldest_ts, _) :: _ => (false, max 0 (oldest_ts + window_size - now), kept)

/-- airtime.py lines 61-64, `AirtimeManager.record_tx`: append (now, airtime). -/
def record_tx (now : ℚ) (hist : List (ℚ × ℚ)) (airtimeMs : ℚ) : List (ℚ × ℚ) :=
  hist ++ [(now, airtimeMs)]

/-- Outcome of the engine's per-packet entry point: whether the packet was
counted as transmitted, the retransmit task scheduled for it (forwarded
packet, delay, airtime to record), the cache and airtime history afterwards,
and the drop reason. -/
structure CallResult where
  transmitted : Bool
  scheduled : Option (Packet × ℚ × ℚ)
  seen : SeenCache
  hist : List (ℚ × ℚ)
  dropReason : Option String
deriving DecidableEq

/-- engine.py lines 106-171, the forwarding decision of
`RepeaterHandler.__call__`: unless in monitor mode, run `process_packet`;
on a result, gate on the airtime accountant and schedule the delayed
retransmit (engine.py line 163). `airtimeDelayMs` and `airtimeDutyMs` are the
two external airtime estimates the source computes (payload length for the
delay, full written frame for the duty gate). The packet's
`doNotRetransmit` flag is not consulted anywhere on this path. -/
def engineCall (cfg : EngineConfig) (acfg : AirtimeConfig) (tc : Bool × String)
    (now : ℚ) (seen : SeenCache) (hist : List (ℚ × ℚ)) (p : Packet)
    (snr r airtimeDelayMs airtimeDutyMs : ℚ) : CallResult :=
  let res := if cfg.monitorMode then (none, seen, some "Monitor mode")
             else process_packet cfg tc now seen p snr r airtimeDelayMs
  match res with
  | (some (fwd, delay), seen', _) =>
    match can_transmit acfg now hist airtimeDutyMs with
    | (true, _, hist') => ⟨true, some (fwd, delay, airtimeDutyMs), seen', hist', none⟩
    | (false, _, hist') => ⟨false, none, seen', hist', some "Duty cycle limit"⟩
  | (none, seen', reason) => ⟨false, none, seen', hist, reason⟩

/-- A row the advert helpers hand to storage
(sqlite_handler.py `store_advert`'s `record` argument). -/
structure AdvertRecord where
  timestamp : ℚ
  pubkey : String
  nodeName : String
  isRepeater : Bool
  routeTypeF : Nat
  contactType : String
  latitude : Option ℚ
  longitude : Option ℚ
  rssi : Int
  snr : ℚ
  isNewNeighbor : Bool
deriving DecidableEq

/-- A persisted row of the `adverts` table (sqlite_handler.py schema). -/
structure AdvertRow where
  timestamp : ℚ
  nodeName : String
  isRepeater : Bool
  routeTypeF : Nat
  contactType : String
  latitude : Option ℚ
  longitude : Option ℚ
  firstSeen : ℚ
  lastSeen : ℚ
  rssi : Int
  snr : ℚ
  advertCount : Nat
  isNewNeighbor : Bool
deriving DecidableEq

/-- sqlite_handler.py lines 186-206, the INSERT branch of `store_advert`:
`first_seen = last_seen = timestamp`, `advert_count = 1`,
`is_new_neighbor = True`. -/
def newAdvertRow (r : AdvertRecord) : AdvertRow :=
  { timestamp := r.timestamp, nodeName := r.nodeName, isRepeater := r.isRepeater
    routeTypeF := r.routeTypeF, contactType := r.contactType
    latitude := r.latitude, longitude := r.longitude
    firstSeen := r.timestamp, lastSeen := r.timestamp
    rssi := r.rssi, snr := r.snr, advertCount := 1, isNewNeighbor := true }

/-- sqlite_handler.py lines 166-184, the UPDATE branch of `store_advert`:
metrics and `last_seen` take the new observation, `advert_count` is
incremented, `is_new_neighbor` cleared; `first_seen` is not in the SET list. -/
def updatedAdvertRow (row : AdvertRow) (r : AdvertRecord) : AdvertRow :=
  { timestamp := r.timestamp, nodeName := r.nodeName, isRepeater := r.isRepeater
    routeTypeF := r.routeTypeF, contactType := r.contactType
    latitude := r.latitude, longitude := r.longitude
    firstSeen := row.firstSeen, lastSeen := r.timestamp
    rssi := r.rssi, snr := r.snr, advertCount := row.advertCount + 1
    isNewNeighbor := false }

/-- The `adverts` table as an association list in row order. -/
abbrev AdvertDB := List (String × AdvertRow)

/-- The SELECT of `store_advert` (first row for the pubkey). -/
def lookupAdvert (db : AdvertDB) (pk : String) : Option AdvertRow :=
  (db.find? (fun e => e.1 == pk)).map Prod.snd

/-- sqlite_handler.py lines 155-209, `SQLiteHandler.store_advert`: SELECT the
row for the record's pubkey; if present, UPDATE every row with that pubkey,
else INSERT a fresh row. -/
def store_advert (db : AdvertDB) (r : AdvertRecord) : AdvertDB :=
  match lookupAdvert db r.pubkey with
  | some _ => db.map (fun e => if e.1 == r.pubkey then (e.1, updatedAdvertRow e.2 r) else e)
  | none => db ++ [(r.pubkey, newAdvertRow r)]

/-- Byte strings, one `Nat` per byte (ASCII text included). -/
abbrev Bytes := List Nat

/-- The bytes of a string's characters (the source's ASCII `str.encode()`). -/
def strBytes (s : String) : Bytes := s.data.map Char.toNat

/-- One lowercase hex digit, as `binascii.hexlify` emits it. -/
def hexDigit (n : Nat) : Nat := if n < 10 then 48 + n else 97 + (n - 10)

/-- `binascii.hexlify`: two lowercase hex characters per byte. -/
def hexEncode (bs : Bytes) : Bytes :=
  bs.foldr (fun b acc => hexDigit (b / 16) :: hexDigit (b % 16) :: acc) []

/-- Python `bytes.upper()` on ASCII text. -/
def byteUpper (b : Nat) : Nat := if 97 ≤ b ∧ b ≤ 122 then b - 32 else b

/-- Uppercasing a byte string. -/
def bytesUpper (bs : Bytes) : Bytes := bs.map byteUpper

/-- The base64url alphabet character for a sextet (RFC 4648 §5, as
`base64.urlsafe_b64encode` uses it). -/
def b64char (n : Nat) : Nat :=
  if n < 26 then 65 + n
  else if n < 52 then 97 + (n - 26)
  else if n < 62 then 48 + (n - 52)
  else if n = 62 then 45
  else 95

/-- The sextet of a base64url alphabet character. -/
def b64inv (c : Nat) : Nat :=
  if 65 ≤ c ∧ c ≤ 90 then c - 65
  else if 97 ≤ c ∧ c ≤ 122 then c - 97 + 26
  else if 48 ≤ c ∧ c ≤ 57 then c - 48 + 52
  else if c = 45 then 62
  else 63

/-- letsmesh_handler.py lines 14-15, `b64url`:
`base64.urlsafe_b64encode(x).rstrip(b"=")` - base64url without padding. -/
def b64url : Bytes → Bytes
  | [] => []
  | [a] => [b64char (a / 4), b64char (a % 4 * 16)]
  | [a, b] => [b64char (a / 4), b64char (a % 4 * 16 + b / 16), b64char (b % 16 * 4)]
  | a :: b :: c :: rest =>
    b64char (a / 4) :: b64char (a % 4 * 16 + b / 16) ::
    b64char (b % 16 * 4 + c / 64) :: b64char (c % 64) :: b64url rest

/-- Base64url decoding of an unpadded encoding (what a broker does to read the
token's payload). -/
def b64urlDecode : Bytes → Bytes
  | [] => []
  | [_] => []
  | [w, x] => [b64inv w * 4 + b64inv x / 16]
  | [w, x, y] =>
    [b64inv w * 4 + b64inv x / 16, b64inv x % 16 * 16 + b64inv y / 4]
  | w :: x :: y :: z :: rest =>
    (b64inv w * 4 + b64inv x / 16) :: (b64inv x % 16 * 16 + b64inv y / 4) ::
    (b64inv y % 4 * 64 + b64inv z) :: b64urlDecode rest

/-- An ASCII decimal digit character. -/
def digitChar (d : Nat) : Char := Char.ofNat (48 + d)

/-- Decimal digits of a natural number, most significant first (`fuel` bounds
the recursion; any fuel above the digit count gives the full numeral). -/
def natDigitsAux : Nat → Nat → List Char
  | 0, _ => []
  | fuel + 1, n => if n = 0 then [] else natDigitsAux fuel (n / 10) ++ [digitChar (n % 10)]

/-- Decimal string of a natural number. -/
def natStr (n : Nat) : String := if n = 0 then "0" else ⟨natDigitsAux (n + 1) n⟩

/-- Decimal string of an integer, as `json.dumps` prints one. -/
def intStr (i : Int) : String := if i < 0 then "-" ++ natStr i.natAbs else natStr i.natAbs

/-- Python `str.upper()` on the configured ASCII hex key. -/
def strUpper (t : String) : String := ⟨t.data.map Char.toUpper⟩

/-- letsmesh_handler.py lines 113-116 and 126: the compact-JSON header
`json.dumps({"alg": "Ed25519", "typ": "JWT"}, separators=(",", ":"))`. -/
def headerJsonStr : String := "\x7b\"alg\":\"Ed25519\",\"typ\":\"JWT\"\x7d"

/-- letsmesh_handler.py lines 118-127: the compact-JSON payload with keys in
insertion order publicKey, aud, iat, exp. -/
def payloadJsonStr (pk aud : String) (iat expiry : Int) : String :=
  "\x7b\"publicKey\":\"" ++ pk ++ "\",\"aud\":\"" ++ aud ++ "\",\"iat\":"
    ++ intStr iat ++ ",\"exp\":" ++ intStr expiry ++ "\x7d"

/-- The Ed25519 primitive the source takes from `nacl.signing` (out of scope
per the spec; only its interface is relied on): signing with a seed, deriving
the verify key, verification, and the correctness law connecting them. -/
structure Ed25519 where
  sign : Bytes → Bytes → Bytes
  derivePub : Bytes → Bytes
  verify : Bytes → Bytes → Bytes → Bool
  sign_verify : ∀ seed msg, verify (derivePub seed) msg (sign seed msg) = true

/-- letsmesh_handler.py lines 60-105: what `_generate_jwt` and `connect` read
from the constructor: the 32-byte seed (`unhexlify(private_key)`), the
configured public key hex, the broker's audience and the token lifetime
(default 10 minutes). -/
structure PusherConfig where
  privateKeySeed : Bytes
  publicKeyHex : String
  audience : String
  jwtExpiryMinutes : Int := 10

/-- letsmesh_handler.py line 81: `self.public_key = public_key.upper()`. -/
def pusherPublicKey (c : PusherConfig) : String := strUpper c.publicKeyHex

/-- letsmesh_handler.py line 175: the MQTT username `"v1_" + self.public_key`. -/
def mqttUsername (c : PusherConfig) : String := "v1_" ++ pusherPublicKey c

/-- The encoded header part `header_b64` (letsmesh_handler.py line 126). -/
def jwtHeaderPart : Bytes := b64url (strBytes headerJsonStr)

/-- The encoded payload part `payload_b64` (letsmesh_handler.py line 127) at
time `now`: `iat = int(now.timestamp())`,
`exp = int((now + timedelta(minutes=m)).timestamp())`. -/
def jwtPayloadPart (c : PusherConfig) (now : ℚ) : Bytes :=
  b64url (strBytes (payloadJsonStr (pusherPublicKey c) c.audience
    ⌊now⌋ ⌊now + (c.jwtExpiryMinutes * 60 : ℤ)⌋))

/-- letsmesh_handler.py line 129: `signing_input = header_b64 "." payload_b64`
(46 is the ASCII dot). -/
def jwtSigningInput (c : PusherConfig) (now : ℚ) : Bytes :=
  jwtHeaderPart ++ [46] ++ jwtPayloadPart c now

/-- letsmesh_handler.py line 142: the Ed25519 signature over the signing
input, made with the configured seed. -/
def jwtSignature (E : Ed25519) (c : PusherConfig) (now : ℚ) : Bytes :=
  E.sign c.privateKeySeed (jwtSigningInput c now)

/-- letsmesh_handler.py lines 110-147, `_generate_jwt`: build the two encoded
parts, check the seed's derived public key against the configured one (a
mismatch raises, modelled as `none`), and return
`header_b64 "." payload_b64 "." hexlify(signature)`. -/
def generate_jwt (E : Ed25519) (c : PusherConfig) (now : ℚ) : Option Bytes :=
  if bytesUpper (hexEncode (E.derivePub c.privateKeySeed))
      = bytesUpper (strBytes (pusherPublicKey c)) then
    some (jwtSigningInput c now ++ [46] ++ hexEncode (jwtSignature E c now))
  else none

/-- The spec's acceptance condition for a flood forward, written from its
words: non-empty payload, path length below `MAX_PATH_SIZE`, flood policy
allows (globally, or through a transport key on a flood route), and the
packet is not a duplicate. -/
def floodAcceptSpec (cfg : EngineConfig) (tc : Bool × String) (seen : SeenCache)
    (p : Packet) : Bool :=
  !p.payload.isEmpty && decide (p.path.length < MAX_PATH_SIZE)
    && (cfg.globalFloodAllow
        || ((routeType p == ROUTE_TYPE_FLOOD || routeType p == ROUTE_TYPE_TRANSPORT_FLOOD)
            && tc.1))
    && !cacheMem seen p.pktHash

/-- The spec's "entries within the last 60 s" of the airtime ledger. -/
def windowKept (now : ℚ) (hist : List (ℚ × ℚ)) : List (ℚ × ℚ) :=
  hist.filter (fun e => now - e.1 < 60)

/-- The spec's sum of the airtime entries within the last 60 s. -/
def windowSum (now : ℚ) (hist : List (ℚ × ℚ)) : ℚ :=
  ((windowKept now hist).map Prod.snd).sum

/-- One advert observation of public key `pk` at time `t` (the helpers build
the record with `timestamp = current_time` and the packet's pubkey). -/
def mkAdvertObs (pk : String) (base : AdvertRecord) (t : ℚ) : AdvertRecord :=
  { base with pubkey := pk, timestamp := t }

/-- A sequence of advert observations of the same public key handed to
`store_advert` in order. -/
def observeAdverts (db : AdvertDB) (pk : String) (base : AdvertRecord)
    (ts : List ℚ) : AdvertDB :=
  ts.foldl (fun d t => store_advert d (mkAdvertObs pk base t)) db

/-- A control/discovery packet flood frame that the router marks
do-not-retransmit (packet_router.py line 116) before handing it to the
engine: header low bits 01 = FLOOD. -/
def c1packet : Packet :=
  { header := 0x11, path := [0x10, 0x20], payload := [0x11, 0x22, 0x33]
    pktHash := "A1B2", doNotRetransmit := true }

/-- A template advert record for concrete upsert runs. -/
def c8base : AdvertRecord :=
  { timestamp := 0, pubkey := "PK", nodeName := "n1", isRepeater := true
    routeTypeF := 1, contactType := "Repeater", latitude := none
    longitude := none, rssi := -90, snr := 5, isNewNeighbor := false }

/-- A trivial Ed25519 scheme instance for concrete token runs (the real
primitive lives outside the repository; only the interface laws matter). -/
def c9scheme : Ed25519 :=
  { sign := fun _ _ => [1, 2], derivePub := fun _ => [171]
    verify := fun _ _ _ => true, sign_verify := fun _ _ => rfl }

/-- A concrete pusher configuration for token runs. -/
def c9cfg : PusherConfig :=
  { privateKeySeed := [7], publicKeyHex := "ab", audience := "x.example" }

/-- The token `generate_jwt` produces for `c9scheme`, `c9cfg` at time 0. -/
def c9tok : Bytes := (generate_jwt c9scheme c9cfg 0).getD []

/-- C2: `is_duplicate` consults only key presence, never the entry's age:
at `now = 100` an entry recorded at time 0 is older than the 60 s TTL (and
`cleanup_cache` would evict it), yet `is_duplicate` still reports a duplicate
and `flood_forward` still suppresses the packet - `cleanup_cache` is called
from no code path. -/
theorem is_duplicate_ignores_cache_ttl :
    is_duplicate [("ABCD", 0)] "ABCD" = true
  ∧ (100 : ℚ) - 0 > 60
  ∧ cleanup_cache 100 60 [("ABCD", 0)] = []
  ∧ (flood_forward { localHash := 66 } (true, "") 100 [("ABCD", 0)]
      { header := 1, path := [16], payload := [1, 2, 3], pktHash := "ABCD" }).fwd
      = none := by
  refine ⟨rfl, by norm_num, ?_, rfl⟩
  simp only [cleanup_cache, List.filter]
  norm_num

/-- C1: a packet a helper has marked do-not-retransmit reaches
`process_packet` and `schedule_retransmit` all the same - the engine entry
point never reads the flag, so the marked packet is still counted as
transmitted and a delayed send is scheduled for it. -/
theorem do_not_retransmit_marked_packet_still_scheduled :
    c1packet.doNotRetransmit = true
  ∧ (engineCall { localHash := 0x42 } { enforcementEnabled := false } (true, "")
      0 [] [] c1packet 0 1 10 10).transmitted = true
  ∧ (engineCall { localHash := 0x42 } { enforcementEnabled := false } (true, "")
      0 [] [] c1packet 0 1 10 10).scheduled.isSome = true :=
  ⟨rfl, rfl, rfl⟩

/-- C7: the packet score is always within [0, 1]; it is 0 when the spreading
factor is below 7 or the SNR is below the per-SF threshold; otherwise it is
`((snr - threshold) / 10) * (1 - len/256)` clamped to [0, 1]; and the per-SF
thresholds are the claimed table. -/
theorem calculate_packet_score_spec (snr : ℚ) (len sf : Nat) :
    0 ≤ calculate_packet_score snr len sf
  ∧ calculate_packet_score snr len sf ≤ 1
  ∧ ((sf < 7 ∨ snr < snrThreshold sf) → calculate_packet_score snr len sf = 0)
  ∧ (7 ≤ sf → snrThreshold sf ≤ snr →
      calculate_packet_score snr len sf
        = max 0 (min 1 ((snr - snrThreshold sf) / 10 * (1 - (len : ℚ) / 256))))
  ∧ snrThreshold 7 = -(15/2) ∧ snrThreshold 8 = -10 ∧ snrThreshold 9 = -(25/2)
  ∧ snrThreshold 10 = -15 ∧ snrThreshold 11 = -(35/2) ∧ snrThreshold 12 = -20 := by
  refine ⟨?_, ?_, ?_, ?_, by norm_num [snrThreshold], by norm_num [snrThreshold],
    by norm_num [snrThreshold], by norm_num [snrThreshold], by norm_num [snrThreshold],
    by norm_num [snrThreshold]⟩
  · unfold calculate_packet_score
    split_ifs with h1 h2
    · norm_num
    · norm_num
    · exact le_max_left _ _
  · unfold calculate_packet_score
    split_ifs with h1 h2
    · norm_num
    · norm_num
    · exact max_le (by norm_num) (min_le_left _ _)
  · intro h
    unfold calculate_packet_score
    split_ifs with h1 h2
    · rfl
    · rfl
    · rcases h with h | h
      · exact absurd h h1
      · exact absurd h h2
  · intro h7 hsnr
    unfold calculate_packet_score
    split_ifs with h1 h2
    · omega
    · exact absurd h2 (not_lt.mpr hsnr)
    · rfl

/-- C6: the transmit delay is capped at 5 s; for a FLOOD route the base delay
is `((airtime * 52/50) / 2) * r * tx_delay_factor` milliseconds, for a DIRECT
route it is `direct_tx_delay_factor` seconds; and when the base delay reaches
50 ms with score-based TX enabled it is multiplied by
`max(0.2, 1 - score)`. -/
theorem calculate_tx_delay_spec (cfg : EngineConfig) (airtimeMs snr r : ℚ)
    (p : Packet) (h0 : 0 ≤ r) (h5 : r ≤ 5) :
    calculate_tx_delay cfg airtimeMs r snr p ≤ 5
  ∧ (routeType p = ROUTE_TYPE_FLOOD →
      txBaseDelay cfg airtimeMs r p
        = ((airtimeMs * 52 / 50) / 2) * r * cfg.txDelayFactor / 1000)
  ∧ (routeType p = ROUTE_TYPE_DIRECT →
      txBaseDelay cfg airtimeMs r p = cfg.directTxDelayFactor)
  ∧ (1/20 ≤ txBaseDelay cfg airtimeMs r p → cfg.useScoreForTx = true →
      txAdjustedDelay cfg airtimeMs r snr p
        = txBaseDelay cfg airtimeMs r p
            * max (1/5) (1 - calculate_packet_score snr p.payload.length 8)) := by
  refine ⟨?_, ?_, ?_, ?_⟩
  · rw [calculate_tx_delay]
    exact min_le_right _ _
  · intro h
    rw [txBaseDelay, if_pos h]
  · intro h
    rw [txBaseDelay, if_neg]
    rw [h]
    decide
  · intro h1 h2
    rw [txAdjustedDelay]
    exact if_pos ⟨h1, h2⟩

/-- Witness for C6 at a concrete flood packet, airtime 100 ms, draw r = 2. -/
theorem calculate_tx_delay_spec_witness :
    (0 : ℚ) ≤ 2 ∧ (2 : ℚ) ≤ 5
  ∧ calculate_tx_delay { localHash := 1 } 100 2 4 c1packet ≤ 5 :=
  ⟨by norm_num, by norm_num,
    (calculate_tx_delay_spec { localHash := 1 } 100 4 2 c1packet (by norm_num)
      (by norm_num)).1⟩

/-- C4: `direct_forward` forwards exactly when the path is non-empty and its
first element is the local hash, in which case the emitted path is the
received path without its first element; otherwise it drops with the
respective reason. -/
theorem direct_forward_correct (cfg : EngineConfig) (p : Packet) :
    ((direct_forward cfg p).1 ≠ none ↔ p.path.head? = some cfg.localHash)
  ∧ (∀ q, (direct_forward cfg p).1 = some q →
      q.path = p.path.drop 1 ∧ q.header = p.header ∧ q.payload = p.payload)
  ∧ (p.path = [] → (direct_forward cfg p).2 = some "Direct: no path")
  ∧ (∀ a t, p.path = a :: t → a ≠ cfg.localHash →
      (direct_forward cfg p).2 = some "Direct: not for us") := by
  rcases hp : p.path with _ | ⟨a, t⟩
  · refine ⟨?_, ?_, ?_, ?_⟩
    · simp [direct_forward, hp]
    · intro q hq
      simp [direct_forward, hp] at hq
    · intro _
      simp [direct_forward, hp]
    · intro a t hat
      exact absurd hat (by simp)
  · by_cases ha : a = cfg.localHash
    · refine ⟨?_, ?_, ?_, ?_⟩
      · simp [direct_forward, hp, ha]
      · intro q hq
        simp [direct_forward, hp, ha] at hq
        simp [← hq, hp]
      · intro h
        exact absurd h (by simp)
      · intro a' t' hat hne
        injection hat with h1 _
        exact absurd (by rw [← h1]; exact ha) hne
    · refine ⟨?_, ?_, ?_, ?_⟩
      · simp [direct_forward, hp, ha]
      · intro q hq
        simp [direct_forward, hp, ha] at hq
      · intro h
        exact absurd h (by simp)
      · intro a' t' hat hne
        simp [direct_forward, hp, ha]

/-- With enforcement on, `can_transmit` in terms of the 60-second window. -/
theorem can_transmit_eq (cfg : AirtimeConfig) (now airtimeMs : ℚ)
    (hist : List (ℚ × ℚ)) (he : cfg.enforcementEnabled = true) :
    can_transmit cfg now hist airtimeMs =
      (if windowSum now hist + airtimeMs ≤ cfg.maxAirtimePerMinute then
        (true, 0, windowKept now hist)
      else
        match windowKept now hist with
        | [] => (false, 1, windowKept now hist)
        | (ts, _) :: _ => (false, max 0 (ts + 60 - now), windowKept now hist)) := by
  simp only [can_transmit, he, Bool.not_true, Bool.false_eq_true, if_false,
    windowSum, windowKept, window_size]

/-- C5: with enforcement off `can_transmit` always admits with zero wait;
with enforcement on it admits exactly when the airtime kept within the last
60 s plus the request fits `max_airtime_per_minute`, and on denial with a
non-empty window the wait is `(oldest.ts + 60) - now` floored at 0. -/
theorem can_transmit_spec (cfg : AirtimeConfig) (now airtimeMs : ℚ)
    (hist : List (ℚ × ℚ)) :
    (cfg.enforcementEnabled = false → can_transmit cfg now hist airtimeMs = (true, 0, hist))
  ∧ (cfg.enforcementEnabled = true →
      (((can_transmit cfg now hist airtimeMs).1 = true) ↔
        windowSum now hist + airtimeMs ≤ cfg.maxAirtimePerMinute)
    ∧ ((can_transmit cfg now hist airtimeMs).1 = false →
        ∀ ts a rest, windowKept now hist = (ts, a) :: rest →
          (can_transmit cfg now hist airtimeMs).2.1 = max 0 (ts + 60 - now))) := by
  constructor
  · intro he
    simp [can_transmit, he]
  · intro he
    rw [can_transmit_eq cfg now airtimeMs hist he]
    by_cases hs : windowSum now hist + airtimeMs ≤ cfg.maxAirtimePerMinute
    · rw [if_pos hs]
      exact ⟨by simp [hs], by simp⟩
    · rw [if_neg hs]
      constructor
      · rcases hk : windowKept now hist with _ | ⟨⟨ts, a⟩, rest⟩ <;> simp [hk, hs]
      · intro _ ts a rest hk
        rw [hk]

/-- C10: processing a direct-routed packet leaves the duplicate cache exactly
as it was (`direct_forward` never calls `mark_seen`), and the forwarding
decision is independent of the cache and of the clock, so the same direct
frame is forwarded again each time it is received. -/
theorem direct_route_preserves_cache (cfg : EngineConfig) (tc tc' : Bool × String)
    (now now' snr r airtimeMs : ℚ) (seen seen' : SeenCache) (p : Packet)
    (h : routeType p = ROUTE_TYPE_DIRECT ∨ routeType p = ROUTE_TYPE_TRANSPORT_DIRECT) :
    (process_packet cfg tc now seen p snr r airtimeMs).2.1 = seen
  ∧ (process_packet cfg tc now seen p snr r airtimeMs).1
      = (process_packet cfg tc' now' seen' p snr r airtimeMs).1 := by
  have hno : ¬(routeType p = ROUTE_TYPE_FLOOD ∨ routeType p = ROUTE_TYPE_TRANSPORT_FLOOD) := by
    rcases h with h | h <;> rw [h] <;> decide
  have hyes : routeType p = ROUTE_TYPE_DIRECT ∨ routeType p = ROUTE_TYPE_TRANSPORT_DIRECT := h
  simp only [process_packet, if_neg hno, if_pos hyes]
  rcases direct_forward cfg p with ⟨_ | q, reason⟩ <;> simp

/-- Witness for C10: a direct frame addressed to local hash 5, processed over
a non-empty cache, leaves the cache untouched and forwards independently of
cache and clock. -/
theorem direct_route_preserves_cache_witness :
    (process_packet { localHash := 5 } (true, "") 0 [("X", 1)]
      { header := 2, path := [5, 9], payload := [1], pktHash := "H" } 0 1 10).2.1
      = [("X", 1)]
  ∧ (process_packet { localHash := 5 } (true, "") 0 [("X", 1)]
      { header := 2, path := [5, 9], payload := [1], pktHash := "H" } 0 1 10).1
      = (process_packet { localHash := 5 } (false, "no") 7 []
      { header := 2, path := [5, 9], payload := [1], pktHash := "H" } 0 1 10).1 :=
  direct_route_preserves_cache { localHash := 5 } (true, "") (false, "no") 0 7 0 1 10
    [("X", 1)] [] { header := 2, path := [5, 9], payload := [1], pktHash := "H" }
    (Or.inl (by decide))

/-- A hash not yet cached is in the cache right after `mark_seen`: insertion
appends it at the tail, and the LRU eviction only drops the head. -/
theorem cacheMem_mark_seen (seen : SeenCache) (h : String) (now : ℚ)
    (hmem : cacheMem seen h = false) :
    cacheMem (mark_seen seen h now) h = true := by
  simp only [mark_seen, odInsert, hmem, Bool.false_eq_true, if_false]
  split_ifs with hlen
  · have h1 : 1 ≤ seen.length := by
      simp only [List.length_append, List.length_cons, List.length_nil,
        max_cache_size] at hlen
      omega
    rw [List.drop_append_of_le_length h1]
    simp [cacheMem, List.any_append]
  · simp [cacheMem, List.any_append]

/-- `flood_forward` under the acceptance conditions: forwarded packet with the
local hash appended, the hash marked seen, no drop reason. -/
theorem flood_forward_accept_eq (cfg : EngineConfig) (tc : Bool × String)
    (now : ℚ) (seen : SeenCache) (p : Packet)
    (hpay : p.payload.isEmpty = false)
    (hpath : p.path.length < MAX_PATH_SIZE)
    (hpol : cfg.globalFloodAllow = true
      ∨ ((routeType p == ROUTE_TYPE_FLOOD || routeType p == ROUTE_TYPE_TRANSPORT_FLOOD) = true
          ∧ tc.1 = true))
    (hdup : cacheMem seen p.pktHash = false) :
    flood_forward cfg tc now seen p =
      ⟨some { p with path := p.path ++ [cfg.localHash] },
        mark_seen seen p.pktHash now, none⟩ := by
  have hple : ¬ (MAX_PATH_SIZE ≤ p.path.length) := not_le.mpr hpath
  by_cases hga : cfg.globalFloodAllow = true
  · simp [flood_forward, validate_packet, hpay, hple, hga, is_duplicate, hdup]
  · rcases hpol with hpol | ⟨hfr, htc⟩
    · exact absurd hpol hga
    · simp only [Bool.not_eq_true] at hga
      simp [flood_forward, validate_packet, hpay, hple, hga, hfr, htc,
        is_duplicate, hdup]

/-- C3: `flood_forward` forwards exactly under the acceptance condition
(non-empty payload, path below `MAX_PATH_SIZE`, flood policy allows, not a
duplicate); then the returned path is the received path with the local hash
appended - so it ends in the local hash and stays within `MAX_PATH_SIZE` -
and the packet hash is in the seen cache on return. In every other case
nothing is forwarded and the cache is unchanged. -/
theorem flood_forward_correct (cfg : EngineConfig) (tc : Bool × String)
    (now : ℚ) (seen : SeenCache) (p : Packet) :
    if floodAcceptSpec cfg tc seen p = true then
      (flood_forward cfg tc now seen p).fwd
          = some { p with path := p.path ++ [cfg.localHash] }
      ∧ (p.path ++ [cfg.localHash]).getLast? = some cfg.localHash
      ∧ (p.path ++ [cfg.localHash]).length ≤ MAX_PATH_SIZE
      ∧ cacheMem (flood_forward cfg tc now seen p).seen p.pktHash = true
    else
      (flood_forward cfg tc now seen p).fwd = none
      ∧ (flood_forward cfg tc now seen p).seen = seen := by
  by_cases hpay : p.payload.isEmpty = true
  · rw [if_neg (by simp [floodAcceptSpec, hpay])]
    simp [flood_forward, validate_packet, hpay]
  · simp only [Bool.not_eq_true] at hpay
    by_cases hpath : p.path.length < MAX_PATH_SIZE
    · by_cases hdup : cacheMem seen p.pktHash = true
      · rw [if_neg (by simp [floodAcceptSpec, hdup])]
        have hple : ¬ (MAX_PATH_SIZE ≤ p.path.length) := not_le.mpr hpath
        by_cases hga : cfg.globalFloodAllow = true
        · simp [flood_forward, validate_packet, hpay, hple, hga, is_duplicate, hdup]
        · simp only [Bool.not_eq_true] at hga
          by_cases hfr : (routeType p == ROUTE_TYPE_FLOOD
              || routeType p == ROUTE_TYPE_TRANSPORT_FLOOD) = true
          · by_cases htc : tc.1 = true
            · simp [flood_forward, validate_packet, hpay, hple, hga, hfr, htc,
                is_duplicate, hdup]
            · simp only [Bool.not_eq_true] at htc
              simp [flood_forward, validate_packet, hpay, hple, hga, hfr, htc]
          · simp only [Bool.not_eq_true] at hfr
            simp [flood_forward, validate_packet, hpay, hple, hga, hfr]
      · simp only [Bool.not_eq_true] at hdup
        by_cases hpol : cfg.globalFloodAllow = true
          ∨ ((routeType p == ROUTE_TYPE_FLOOD
              || routeType p == ROUTE_TYPE_TRANSPORT_FLOOD) = true ∧ tc.1 = true)
        · have hacc : floodAcceptSpec cfg tc seen p = true := by
            rcases hpol with hga | ⟨hfr, htc⟩
            · simp [floodAcceptSpec, hpay, hpath, hdup, hga]
            · simp [floodAcceptSpec, hpay, hpath, hdup, hfr, htc]
          rw [if_pos hacc, flood_forward_accept_eq cfg tc now seen p hpay hpath hpol hdup]
          refine ⟨rfl, List.getLast?_concat _, ?_, ?_⟩
          · simp only [List.length_append, List.length_cons, List.length_nil]
            unfold MAX_PATH_SIZE at hpath ⊢
            omega
          · exact cacheMem_mark_seen seen p.pktHash now hdup
        · have hga : cfg.globalFloodAllow = false := by
            rcases hga' : cfg.globalFloodAllow
            · rfl
            · exact absurd (Or.inl hga') hpol
          have hb : ((routeType p == ROUTE_TYPE_FLOOD
              || routeType p == ROUTE_TYPE_TRANSPORT_FLOOD) && tc.1) = false := by
            rcases Bool.eq_false_or_eq_true ((routeType p == ROUTE_TYPE_FLOOD
                || routeType p == ROUTE_TYPE_TRANSPORT_FLOOD) && tc.1) with h | h
            · exact absurd (Or.inr (Bool.and_eq_true _ _ |>.mp h)) hpol
            · exact h
          rw [if_neg (by simp [floodAcceptSpec, hga, hb])]
          have hple : ¬ (MAX_PATH_SIZE ≤ p.path.length) := not_le.mpr hpath
          rcases hfr : (routeType p == ROUTE_TYPE_FLOOD
              || routeType p == ROUTE_TYPE_TRANSPORT_FLOOD)
          · simp [flood_forward, validate_packet, hpay, hple, hga, hfr]
          · have htc : tc.1 = false := by
              rw [hfr] at hb
              simpa using hb
            simp [flood_forward, validate_packet, hpay, hple, hga, hfr, htc]
    · rw [if_neg (by simp [floodAcceptSpec, hpath])]
      have hple : MAX_PATH_SIZE ≤ p.path.length := not_lt.mp hpath
      simp [flood_forward, validate_packet, hpay, hple]

/-- One `store_advert` step through the lookup: a fresh pubkey gets the INSERT
row, an existing one the UPDATE of its current row. -/
theorem lookupAdvert_store (db : AdvertDB) (r : AdvertRecord) :
    lookupAdvert (store_advert db r) r.pubkey =
      some ((lookupAdvert db r.pubkey).elim (newAdvertRow r)
        (fun row => updatedAdvertRow row r)) := by
  induction db with
  | nil => simp [store_advert, lookupAdvert]
  | cons e rest ih =>
    obtain ⟨k, row⟩ := e
    by_cases hk : k = r.pubkey
    · subst hk
      simp [store_advert, lookupAdvert, List.find?]
    · have hkb : (k == r.pubkey) = false := beq_eq_false_iff_ne.mpr hk
      have hsc : lookupAdvert ((k, row) :: rest) r.pubkey = lookupAdvert rest r.pubkey := by
        unfold lookupAdvert
        rw [List.find?_cons_of_neg _ (by simp [hkb])]
      have hstep : store_advert ((k, row) :: rest) r = (k, row) :: store_advert rest r := by
        unfold store_advert
        rw [hsc]
        rcases hl : lookupAdvert rest r.pubkey with _ | row'
        · simp
        · simp [hkb, hk]
      rw [hstep]
      have hsc2 : lookupAdvert ((k, row) :: store_advert rest r) r.pubkey
          = lookupAdvert (store_advert rest r) r.pubkey := by
        unfold lookupAdvert
        rw [List.find?_cons_of_neg _ (by simp [hkb])]
      rw [hsc2, ih, hsc]


/-- Folding further observations over a database that already has a row for
the pubkey: the count grows by the number of observations, `first_seen` is
untouched, `last_seen` follows the last observation, and the new-neighbor
flag is cleared as soon as one observation lands. -/
theorem lookupAdvert_observe_fold (pk : String) (base : AdvertRecord) :
    ∀ (ts : List ℚ) (db : AdvertDB) (row : AdvertRow),
    lookupAdvert db pk = some row →
    ∃ row', lookupAdvert
        (ts.foldl (fun d t => store_advert d (mkAdvertObs pk base t)) db) pk = some row'
      ∧ row'.advertCount = row.advertCount + ts.length
      ∧ row'.firstSeen = row.firstSeen
      ∧ row'.lastSeen = ts.getLastD row.lastSeen
      ∧ row'.isNewNeighbor = (ts.isEmpty && row.isNewNeighbor) := by
  intro ts
  induction ts with
  | nil =>
    intro db row h
    exact ⟨row, h, by simp, rfl, by simp, by simp⟩
  | cons t ts' ih =>
    intro db row h
    have hpk : (mkAdvertObs pk base t).pubkey = pk := rfl
    have hstep := lookupAdvert_store db (mkAdvertObs pk base t)
    rw [hpk, h] at hstep
    simp only [Option.elim_some] at hstep
    obtain ⟨row', h1, h2, h3, h4, h5⟩ :=
      ih (store_advert db (mkAdvertObs pk base t)) _ hstep
    refine ⟨row', by simpa using h1, ?_, ?_, ?_, ?_⟩
    · simp only [updatedAdvertRow] at h2
      simp [h2, List.length_cons]
      omega
    · simpa [updatedAdvertRow] using h3
    · simp only [updatedAdvertRow, mkAdvertObs] at h4
      rw [List.getLastD_cons]
      exact h4
    · simp only [updatedAdvertRow, Bool.and_false] at h5
      simp [h5]

/-- The first element of a chain is at most the last. -/
theorem chain_le_getLastD : ∀ (rest : List ℚ) (t0 : ℚ),
    List.Chain (· ≤ ·) t0 rest → t0 ≤ rest.getLastD t0
  | [], _, _ => le_refl _
  | t :: ts, t0, h => by
    rw [List.chain_cons] at h
    calc t0 ≤ t := h.1
    _ ≤ ts.getLastD t := chain_le_getLastD ts t h.2
    _ = (t :: ts).getLastD t0 := (List.getLastD_cons t0 t ts).symm

/-- C8: N ordered observations of a fresh public key leave the store with one
row for it whose `advert_count` is N, whose `first_seen` is the first
observation time and `last_seen` the last (so `first_seen` is at most
`last_seen`), and whose new-neighbor flag holds exactly for N = 1. -/
theorem store_advert_upsert_spec (db : AdvertDB) (pk : String)
    (base : AdvertRecord) (t0 : ℚ) (rest : List ℚ)
    (hfresh : lookupAdvert db pk = none)
    (hmono : List.Chain (· ≤ ·) t0 rest) :
    ∃ row, lookupAdvert (observeAdverts db pk base (t0 :: rest)) pk = some row
      ∧ row.advertCount = (t0 :: rest).length
      ∧ row.firstSeen = t0
      ∧ row.lastSeen = (t0 :: rest).getLastD 0
      ∧ row.firstSeen ≤ row.lastSeen
      ∧ row.isNewNeighbor = rest.isEmpty := by
  have hpk : (mkAdvertObs pk base t0).pubkey = pk := rfl
  have hstep := lookupAdvert_store db (mkAdvertObs pk base t0)
  rw [hpk, hfresh] at hstep
  simp only [Option.elim_none] at hstep
  obtain ⟨row', h1, h2, h3, h4, h5⟩ :=
    lookupAdvert_observe_fold pk base rest (store_advert db (mkAdvertObs pk base t0))
      _ hstep
  refine ⟨row', by simpa [observeAdverts] using h1, ?_, ?_, ?_, ?_, ?_⟩
  · simp only [newAdvertRow] at h2
    simp [h2]
    omega
  · simpa [newAdvertRow, mkAdvertObs] using h3
  · simp only [newAdvertRow, mkAdvertObs] at h4
    rw [List.getLastD_cons]
    exact h4
  · have hfs : row'.firstSeen = t0 := by simpa [newAdvertRow, mkAdvertObs] using h3
    have hls : row'.lastSeen = rest.getLastD t0 := by
      simpa [newAdvertRow, mkAdvertObs] using h4
    rw [hfs, hls]
    exact chain_le_getLastD rest t0 hmono
  · simp only [newAdvertRow, Bool.and_true] at h5
    simp [h5]

/-- Witness for C8: three observations of the fresh key "PK" at times 1, 2, 3
leave count 3, first seen 1, last seen 3, and the new-neighbor flag clear. -/
theorem store_advert_upsert_spec_witness :
    ∃ row, lookupAdvert (observeAdverts [] "PK" c8base (1 :: [2, 3])) "PK" = some row
      ∧ row.advertCount = (1 :: [2, 3] : List ℚ).length
      ∧ row.firstSeen = 1
      ∧ row.lastSeen = ((1 : ℚ) :: [2, 3]).getLastD 0
      ∧ row.firstSeen ≤ row.lastSeen
      ∧ row.isNewNeighbor = ([2, 3] : List ℚ).isEmpty :=
  store_advert_upsert_spec [] "PK" c8base 1 [2, 3] rfl
    (by norm_num [List.chain_cons])



/-- Decoding inverts the sextet encoding on the base64url alphabet. -/
theorem b64inv_b64char : ∀ n < 64, b64inv (b64char n) = n := by decide

/-- Base64url decoding inverts unpadded base64url encoding on byte strings. -/
theorem b64url_roundtrip : ∀ bs : Bytes, (∀ b ∈ bs, b < 256) →
    b64urlDecode (b64url bs) = bs
  | [], _ => rfl
  | [a], h => by
    have ha : a < 256 := h a (by simp)
    have h0 : a / 4 < 64 := by omega
    have h1 : a % 4 * 16 < 64 := by omega
    simp only [b64url, b64urlDecode, b64inv_b64char _ h0, b64inv_b64char _ h1,
      List.cons.injEq, and_true]
    omega
  | [a, b], h => by
    have ha : a < 256 := h a (by simp)
    have hb : b < 256 := h b (by simp)
    have h0 : a / 4 < 64 := by omega
    have h1 : a % 4 * 16 + b / 16 < 64 := by omega
    have h2 : b % 16 * 4 < 64 := by omega
    simp only [b64url, b64urlDecode, b64inv_b64char _ h0, b64inv_b64char _ h1,
      b64inv_b64char _ h2, List.cons.injEq, and_true]
    omega
  | a :: b :: c :: rest, h => by
    have ha : a < 256 := h a (by simp)
    have hb : b < 256 := h b (by simp)
    have hc : c < 256 := h c (by simp)
    have h0 : a / 4 < 64 := by omega
    have h1 : a % 4 * 16 + b / 16 < 64 := by omega
    have h2 : b % 16 * 4 + c / 64 < 64 := by omega
    have h3 : c % 64 < 64 := by omega
    have hrest := b64url_roundtrip rest (fun x hx => h x (by simp [hx]))
    simp only [b64url, b64urlDecode, b64inv_b64char _ h0, b64inv_b64char _ h1,
      b64inv_b64char _ h2, b64inv_b64char _ h3, hrest, List.cons.injEq, and_true]
    refine ⟨by omega, by omega, by omega⟩

/-- No base64url alphabet character is the ASCII dot. -/
theorem b64char_ne_dot (n : Nat) : b64char n ≠ 46 := by
  unfold b64char
  split_ifs <;> omega

/-- The dot never occurs in a base64url encoding. -/
theorem dot_not_mem_b64url : ∀ bs : Bytes, ¬ 46 ∈ b64url bs
  | [] => by simp [b64url]
  | [a] => by
    simp only [b64url, List.mem_cons, List.not_mem_nil, or_false]
    rintro (h | h) <;> exact absurd h.symm (b64char_ne_dot _)
  | [a, b] => by
    simp only [b64url, List.mem_cons, List.not_mem_nil, or_false]
    rintro (h | h | h) <;> exact absurd h.symm (b64char_ne_dot _)
  | a :: b :: c :: rest => by
    simp only [b64url, List.mem_cons]
    rintro (h | h | h | h | h)
    · exact absurd h.symm (b64char_ne_dot _)
    · exact absurd h.symm (b64char_ne_dot _)
    · exact absurd h.symm (b64char_ne_dot _)
    · exact absurd h.symm (b64char_ne_dot _)
    · exact dot_not_mem_b64url rest h

/-- No hex digit character is the ASCII dot. -/
theorem hexDigit_ne_dot (n : Nat) : hexDigit n ≠ 46 := by
  unfold hexDigit
  split_ifs <;> omega

/-- The dot never occurs in a hex encoding. -/
theorem dot_not_mem_hexEncode (bs : Bytes) : ¬ 46 ∈ hexEncode bs := by
  induction bs with
  | nil => simp [hexEncode]
  | cons b rest ih =>
    simp only [hexEncode, List.foldr_cons, List.mem_cons]
    rintro (h | h | h)
    · exact absurd h.symm (hexDigit_ne_dot _)
    · exact absurd h.symm (hexDigit_ne_dot _)
    · exact ih (by simpa [hexEncode] using h)

/-- C9: a generated upstream token is
`header_b64 "." payload_b64 "." hex(signature)` with exactly two dots;
base64url-decoding the middle part yields the compact JSON whose publicKey is
the configured key uppercased, whose aud is the broker audience and whose exp
is iat + 600 s; the Ed25519 signature verifies over `header_b64.payload_b64`
under the signing key whose public half matches the configured key; and the
MQTT username is "v1_" and the uppercase key. -/
theorem generate_jwt_spec (E : Ed25519) (c : PusherConfig) (now : ℚ) (tok : Bytes)
    (hgen : generate_jwt E c now = some tok)
    (hmin : c.jwtExpiryMinutes = 10)
    (hascii : ∀ b ∈ strBytes (payloadJsonStr (pusherPublicKey c) c.audience
        ⌊now⌋ (⌊now⌋ + 600)), b < 256) :
    tok = jwtHeaderPart ++ [46] ++ jwtPayloadPart c now ++ [46]
        ++ hexEncode (jwtSignature E c now)
  ∧ tok.count 46 = 2
  ∧ b64urlDecode (jwtPayloadPart c now)
      = strBytes (payloadJsonStr (strUpper c.publicKeyHex) c.audience ⌊now⌋ (⌊now⌋ + 600))
  ∧ E.verify (E.derivePub c.privateKeySeed) (jwtSigningInput c now)
      (jwtSignature E c now) = true
  ∧ bytesUpper (hexEncode (E.derivePub c.privateKeySeed))
      = bytesUpper (strBytes (strUpper c.publicKeyHex))
  ∧ mqttUsername c = "v1_" ++ strUpper c.publicKeyHex := by
  have hexp : ⌊now + ((c.jwtExpiryMinutes * 60 : ℤ) : ℚ)⌋ = ⌊now⌋ + 600 := by
    rw [hmin, show ((10 * 60 : ℤ) : ℚ) = ((600 : ℤ) : ℚ) by norm_num,
      Int.floor_add_int]
  have hpp : jwtPayloadPart c now
      = b64url (strBytes (payloadJsonStr (pusherPublicKey c) c.audience
        ⌊now⌋ (⌊now⌋ + 600))) := by
    unfold jwtPayloadPart
    rw [hexp]
  unfold generate_jwt at hgen
  split_ifs at hgen with hguard
  · have htok : tok = jwtSigningInput c now ++ [46] ++ hexEncode (jwtSignature E c now) :=
      (Option.some.inj hgen).symm
    have ch : (jwtHeaderPart).count 46 = 0 :=
      List.count_eq_zero.mpr (dot_not_mem_b64url _)
    have cp : (jwtPayloadPart c now).count 46 = 0 := by
      rw [hpp]
      exact List.count_eq_zero.mpr (dot_not_mem_b64url _)
    have cs : (hexEncode (jwtSignature E c now)).count 46 = 0 :=
      List.count_eq_zero.mpr (dot_not_mem_hexEncode _)
    refine ⟨by rw [htok, jwtSigningInput], ?_, ?_, ?_, ?_, rfl⟩
    · rw [htok]
      simp [jwtSigningInput, List.count_append, ch, cp, cs]
    · rw [hpp, b64url_roundtrip _ hascii]
      rfl
    · exact E.sign_verify c.privateKeySeed (jwtSigningInput c now)
    · exact hguard

/-- Witness for C9: the concrete scheme and configuration produce a token, and
its payload part decodes back to the compact JSON payload. -/
theorem generate_jwt_spec_witness :
    generate_jwt c9scheme c9cfg 0 = some c9tok
  ∧ b64urlDecode (jwtPayloadPart c9cfg 0)
      = strBytes (payloadJsonStr (strUpper c9cfg.publicKeyHex) c9cfg.audience
        ⌊(0 : ℚ)⌋ (⌊(0 : ℚ)⌋ + 600)) := by
  have hgen : generate_jwt c9scheme c9cfg 0 = some c9tok := rfl
  refine ⟨hgen, ?_⟩
  have hascii : ∀ b ∈ strBytes (payloadJsonStr (pusherPublicKey c9cfg) c9cfg.audience
      ⌊(0 : ℚ)⌋ (⌊(0 : ℚ)⌋ + 600)), b < 256 := by
    rw [show (⌊(0 : ℚ)⌋ : ℤ) = 0 from Int.floor_zero]
    decide
  exact (generate_jwt_spec c9scheme c9cfg 0 c9tok hgen rfl hascii).2.2.1


end Repeater
